import Mathlib

/-!
Verification of the crengine core pipeline (score.py, consolidate.py,
prompt_generation.py) of the AI-code-review repository.

Modelling conventions:
* Python floats are modelled as exact rationals (`ℚ`); the numeric literals
  of the source are decimal and all claim-relevant computations stay exact.
* Python's `round(x, 2)` (round-half-to-even on the second decimal) is
  modelled by `round2` below, built on a round-half-to-even integer rounder.
* Python dicts keyed by strings are modelled as association lists
  (`List (String × _)`) with first-occurrence lookup, which matches dict
  behaviour because keys are inserted at most once.
* Fallible code (the `"min-max"` scale parse, which can raise `ValueError`)
  returns `Option`.
-/

namespace Crengine

/-- Round-half-to-even to an integer, as Python's builtin `round` does. -/
def roundHalfEven (q : ℚ) : ℤ :=
  if q - ⌊q⌋ < 1/2 then ⌊q⌋
  else if 1/2 < q - ⌊q⌋ then ⌊q⌋ + 1
  else if ⌊q⌋ % 2 = 0 then ⌊q⌋ else ⌊q⌋ + 1

/-- Python `round(x, 2)`: round-half-to-even at the second decimal place. -/
def round2 (q : ℚ) : ℚ :=
  (roundHalfEven (q * 100) : ℚ) / 100

theorem roundHalfEven_intCast (n : ℤ) : roundHalfEven (n : ℚ) = n := by
  unfold roundHalfEven
  simp only [Int.floor_intCast]
  norm_num

theorem roundHalfEven_bounds (q : ℚ) : ⌊q⌋ ≤ roundHalfEven q ∧ roundHalfEven q ≤ ⌊q⌋ + 1 := by
  unfold roundHalfEven
  split_ifs <;> omega

theorem roundHalfEven_mono {x y : ℚ} (h : x ≤ y) : roundHalfEven x ≤ roundHalfEven y := by
  have hf : ⌊x⌋ ≤ ⌊y⌋ := Int.floor_le_floor h
  rcases lt_or_eq_of_le hf with hlt | heq
  · have h1 := roundHalfEven_bounds x
    have h2 := roundHalfEven_bounds y
    omega
  · have hx : x - ⌊x⌋ ≤ y - ⌊y⌋ := by
      rw [← heq]
      exact sub_le_sub_right h _
    unfold roundHalfEven
    rw [← heq]
    split_ifs <;> first
      | omega
      | (exfalso; push_neg at *; linarith)

theorem round2_mono {x y : ℚ} (h : x ≤ y) : round2 x ≤ round2 y := by
  unfold round2
  have := roundHalfEven_mono (mul_le_mul_of_nonneg_right h (by norm_num : (0:ℚ) ≤ 100))
  have hcast : ((roundHalfEven (x * 100) : ℤ) : ℚ) ≤ ((roundHalfEven (y * 100) : ℤ) : ℚ) := by
    exact_mod_cast this
  linarith

theorem round2_intCast (n : ℤ) : round2 (n : ℚ) = n := by
  unfold round2
  have h : ((n : ℚ)) * 100 = ((n * 100 : ℤ) : ℚ) := by push_cast; ring
  rw [h, roundHalfEven_intCast]
  push_cast
  ring

theorem intCast_le_round2 {n : ℤ} {x : ℚ} (h : (n : ℚ) ≤ x) : (n : ℚ) ≤ round2 x := by
  calc (n : ℚ) = round2 (n : ℚ) := (round2_intCast n).symm
    _ ≤ round2 x := round2_mono h

theorem round2_le_intCast {n : ℤ} {x : ℚ} (h : x ≤ (n : ℚ)) : round2 x ≤ (n : ℚ) := by
  calc round2 x ≤ round2 (n : ℚ) := round2_mono h
    _ = (n : ℚ) := round2_intCast n

/-- Python `str.upper` (ASCII-relevant part), written over the character
list so that the kernel can evaluate it on literals. -/
def pyUpper (s : String) : String :=
  String.mk (s.data.map Char.toUpper)

/-- Python `str.lower`, written over the character list. -/
def pyLower (s : String) : String :=
  String.mk (s.data.map Char.toLower)

/-- Digits-only decimal parse of a character list (`none` if empty or any
non-digit is present). -/
def pyDigits? (cs : List Char) : Option ℕ :=
  match cs with
  | [] => none
  | _ =>
    if cs.all Char.isDigit then
      some (cs.foldl (fun n c => 10 * n + (c.toNat - ('0').toNat)) 0)
    else none

/-- Python `int(s)` on a plain decimal string: optional sign then digits. -/
def pyInt? (s : String) : Option ℤ :=
  match s.data with
  | '-' :: cs => (pyDigits? cs).map (fun n => -(n : ℤ))
  | '+' :: cs => (pyDigits? cs).map (fun n => (n : ℤ))
  | cs => (pyDigits? cs).map (fun n => (n : ℤ))

/-- Python `str.split(sep)` for a one-character separator: every occurrence
of the separator starts a new (possibly empty) piece. -/
def pySplitChar (sep : Char) : List Char → List (List Char)
  | [] => [[]]
  | c :: rest =>
    match pySplitChar sep rest with
    | [] => [[c]]
    | h :: t => if c = sep then [] :: h :: t else (c :: h) :: t

/-- model_schemas.Finding: one issue reported by an analysis tool. -/
structure Finding where
  tool : String
  rule_id : String
  severity : String
  message : String
  file : String
  line : Option Int
  col : Option Int
  suggestion : Option String
  tags : List String
deriving DecidableEq, Repr

/-- model_schemas.ScoredItem: a Finding annotated with priority scores. -/
structure ScoredItem where
  finding : Finding
  difficulty_risk : ℚ
  value_importance : ℚ
  est_hours : ℚ
deriving DecidableEq, Repr

/-- score._severity_weight: case-insensitive table lookup with lenient
default 0.2 (the dict `.get(sev.upper(), 0.2)` of the source). -/
def _severity_weight (sev : String) : ℚ :=
  if pyUpper sev = "CRITICAL" then 1.0
  else if pyUpper sev = "HIGH" then 0.85
  else if pyUpper sev = "MEDIUM" then 0.6
  else if pyUpper sev = "LOW" then 0.35
  else if pyUpper sev = "INFO" then 0.2
  else 0.2

theorem severity_weight_bounds (sev : String) :
    (0.2 : ℚ) ≤ _severity_weight sev ∧ _severity_weight sev ≤ 1 := by
  unfold _severity_weight
  split_ifs <;> norm_num

/-- score.score_findings: heuristic scorer. `est` is computed from the
unrounded scores, as in the source (line 13). -/
def score_findings (findings : List Finding) : List ScoredItem :=
  findings.map (fun f =>
    let dr : ℚ := 1.0 + 4.0 * _severity_weight f.severity *
      (if "security" ∈ f.tags then 1.0 else 0.7)
    let vi : ℚ := 1.0 + 4.0 *
      (if "security" ∈ f.tags ∨ "perf" ∈ f.tags then _severity_weight f.severity else 0.5)
    let est : ℚ := if vi < 2 then 0.5 else if dr < 2.5 then 2 else 6
    ⟨f, round2 dr, round2 vi, est⟩)

/-- The four difficulty weight keys of a scoring configuration; a missing
field models a missing dict key. -/
structure DWeights where
  code_complexity : Option ℚ
  coupling_blastradius : Option ℚ
  test_coverage_gap : Option ℚ
  tooling_fixability : Option ℚ
deriving DecidableEq, Repr

/-- The four value weight keys of a scoring configuration. -/
structure VWeights where
  security_severity : Option ℚ
  reliability_perf : Option ℚ
  developer_experience : Option ℚ
  user_value : Option ℚ
deriving DecidableEq, Repr

/-- A scoring configuration dict: each top-level key may be absent. -/
structure ScoringConfig where
  difficulty_weights : Option DWeights
  value_weights : Option VWeights
  scale : Option String
deriving DecidableEq, Repr

/-- Effective difficulty weight: the source first falls back to a default
dict whose four values are all 0.25, then does `.get(key, 0.25)`; both
fallbacks yield 0.25. -/
def dwGet (o : Option DWeights) (sel : DWeights → Option ℚ) : ℚ :=
  match o with
  | none => 0.25
  | some d => (sel d).getD 0.25

/-- Effective value weight, same fallback policy as `dwGet`. -/
def vwGet (o : Option VWeights) (sel : VWeights → Option ℚ) : ℚ :=
  match o with
  | none => 0.25
  | some v => (sel v).getD 0.25

/-- The scale parse `min_score, max_score = map(int, scale.split("-"))`;
`none` models the `ValueError` Python raises on a malformed scale. -/
def parseScale (s : String) : Option (ℤ × ℤ) :=
  match pySplitChar ('-') s.data with
  | [a, b] =>
    match pyInt? (String.mk a), pyInt? (String.mk b) with
    | some x, some y => some (x, y)
    | _, _ => none
  | _ => none

/-- score._estimate_hours: person-hour tiers from the average score. -/
def _estimate_hours (difficulty value : ℚ) : ℚ :=
  if (difficulty + value) / 2 < 2.0 then 0.5
  else if (difficulty + value) / 2 < 3.0 then 2.0
  else if (difficulty + value) / 2 < 4.0 then 6.0
  else 12.0

/-- score.score_findings_from_config: config-driven scorer. Returns `none`
when the configured scale string does not parse (Python raises there). -/
def score_findings_from_config (findings : List Finding) (cfg : ScoringConfig) :
    Option (List ScoredItem) :=
  match parseScale (cfg.scale.getD "1-5") with
  | none => none
  | some (min_score, max_score) =>
    let score_range : ℚ := (max_score : ℚ) - (min_score : ℚ)
    some (findings.map (fun f =>
      let severity_factor := _severity_weight f.severity
      let code_complexity := severity_factor
      let coupling_blastradius : ℚ := if "security" ∈ f.tags then 1.0 else 0.7
      let test_coverage_gap : ℚ := if "tests" ∈ f.tags then 0.8 else 0.5
      let tooling_fixability : ℚ := if f.tool = "flake8" ∨ f.tool = "pylint" then 0.3 else 0.7
      let difficulty_raw :=
        dwGet cfg.difficulty_weights DWeights.code_complexity * code_complexity +
        dwGet cfg.difficulty_weights DWeights.coupling_blastradius * coupling_blastradius +
        dwGet cfg.difficulty_weights DWeights.test_coverage_gap * test_coverage_gap +
        dwGet cfg.difficulty_weights DWeights.tooling_fixability * tooling_fixability
      let security_severity : ℚ := if "security" ∈ f.tags then severity_factor else 0.2
      let reliability_perf : ℚ := if "perf" ∈ f.tags then severity_factor else 0.3
      let developer_experience : ℚ :=
        if "tests" ∈ f.tags ∨ "docs" ∈ f.tags ∨ "typing" ∈ f.tags then 0.6 else 0.3
      let user_value : ℚ :=
        if "ux" ∈ f.tags ∨ "api" ∈ f.tags ∨ "i18n" ∈ f.tags then 0.7 else 0.2
      let value_raw :=
        vwGet cfg.value_weights VWeights.security_severity * security_severity +
        vwGet cfg.value_weights VWeights.reliability_perf * reliability_perf +
        vwGet cfg.value_weights VWeights.developer_experience * developer_experience +
        vwGet cfg.value_weights VWeights.user_value * user_value
      let difficulty_risk := (min_score : ℚ) + difficulty_raw * score_range
      let value_importance := (min_score : ℚ) + value_raw * score_range
      let est_hours := _estimate_hours difficulty_risk value_importance
      ⟨f, round2 difficulty_risk, round2 value_importance, est_hours⟩))

/-! Association-list model of the Python dicts used by consolidate.py.
Keys are inserted at most once by the source, and both `dictAppend` and
`dictGetD` act on the first occurrence of a key, matching dict semantics. -/

/-- Dict assignment `d[k] = v`: overwrite the first binding of `k`, or add
the binding at the end (dict insertion order). -/
def dictSet {α : Type} (d : List (String × List α)) (k : String) (v : List α) :
    List (String × List α) :=
  match d with
  | [] => [(k, v)]
  | (k', v') :: rest =>
    if k' = k then (k', v) :: rest else (k', v') :: dictSet rest k v

/-- Dict list append `d[k].append(x)` (adding the key when absent; the
source only calls this on keys it has initialized). -/
def dictAppend {α : Type} (d : List (String × List α)) (k : String) (x : α) :
    List (String × List α) :=
  match d with
  | [] => [(k, [x])]
  | (k', v') :: rest =>
    if k' = k then (k', v' ++ [x]) :: rest else (k', v') :: dictAppend rest k x

/-- The keys of the dict, in insertion order. -/
def dictKeys {α : Type} (d : List (String × List α)) : List String :=
  d.map (fun e => e.1)

/-- Lookup with `[]` as default for an absent key. -/
def dictGetD {α : Type} (d : List (String × List α)) (k : String) : List α :=
  match d.find? (fun e => e.1 == k) with
  | some e => e.2
  | none => []

/-- Total number of values across all of the dict's lists. -/
def sumLens {α : Type} (d : List (String × List α)) : Nat :=
  (d.map (fun e => e.2.length)).sum

/-- consolidate.to_phases: legacy fixed-rule router. -/
def to_phases (items : List ScoredItem) : List (String × List ScoredItem) :=
  items.foldl (fun phases it =>
    if "security" ∈ it.finding.tags then
      dictAppend phases "Phase 1 – Security & Safety" it
    else if "perf" ∈ it.finding.tags then
      dictAppend phases "Phase 2 – Reliability & Performance" it
    else if "style" ∈ it.finding.tags then
      dictAppend phases "Phase 0 – Repo Hygiene" it
    else
      dictAppend phases "Phase 3 – Developer Experience" it)
    [("Phase 0 – Repo Hygiene", []),
     ("Phase 1 – Security & Safety", []),
     ("Phase 2 – Reliability & Performance", []),
     ("Phase 3 – Developer Experience", []),
     ("Phase 4 – Product Polish", [])]

/-- A phase definition from config/engine.yaml: name and include_tags. -/
structure PhaseDef where
  name : String
  include_tags : List String
deriving DecidableEq, Repr

/-- The phase an item of to_phases_from_config is routed to: the name of
the first normalized phase whose include_tags intersect the item's
lower-cased tags, else the catch-all "Uncategorized" (source lines 59–76:
first match wins via `break`, the unmatched item goes to the catch-all). -/
def routeKey (normalized_config : List PhaseDef) (item : ScoredItem) : String :=
  match normalized_config.find? (fun p =>
      (item.finding.tags.map pyLower).any (fun tag => p.include_tags.contains tag)) with
  | some p => p.name
  | none => "Uncategorized"

/-- consolidate.to_phases_from_config: config-driven router. Each loop
iteration appends the item to exactly one list, the one `routeKey`
selects. -/
def to_phases_from_config (items : List ScoredItem) (phase_config : List PhaseDef) :
    List (String × List ScoredItem) :=
  let phases :=
    dictSet (phase_config.foldl (fun d p => dictSet d p.name []) []) "Uncategorized" []
  let normalized_config :=
    phase_config.map (fun p => PhaseDef.mk p.name (p.include_tags.map pyLower))
  items.foldl (fun d item => dictAppend d (routeKey normalized_config item) item) phases

/-! prompt_generation.py. The source file is read with `readlines()`; we
model the already-read file as its list of raw lines (each line normally
still carrying its trailing newline, as `readlines` produces). -/

/-- Python `line.rstrip(backslash-n)`: drop trailing newline characters. -/
def stripNl (s : String) : String :=
  String.mk (s.data.reverse.dropWhile (fun c => c = '\n')).reverse

/-- Python list slice `l[a:b]` for `0 ≤ a ≤ b` (as used by the source). -/
def pySlice {α : Type} (l : List α) (a b : Nat) : List α :=
  (l.drop a).take (b - a)

/-- Python `f"{n:4d}"`: decimal rendering left-padded with spaces to
width 4. -/
def padLeft4 (n : Nat) : String :=
  String.mk (List.replicate (4 - (toString n).length) ' ') ++ toString n

/-- The dictionary returned by prompt_generation.extract_file_context. -/
structure FileContext where
  target_line : String
  before : List String
  after : List String
  full_context : String
deriving DecidableEq, Repr

/-- prompt_generation.extract_file_context, after the file has been read
into `lines` (the missing-file branch is outside this model: the claim is
about existing files). Total — the out-of-range branch returns the
descriptive placeholder instead of raising. -/
def extract_file_context (lines : List String) (line_num : Int)
    (context_lines : Nat) (include_line_numbers : Bool) : FileContext :=
  if line_num - 1 < 0 ∨ (lines.length : Int) ≤ line_num - 1 then
    { target_line := ""
      before := []
      after := []
      full_context := ("Line " ++ toString line_num ++ " ") ++ "out of range" ++
        (" (file has " ++ toString lines.length ++ " lines)") }
  else
    let target_idx : Nat := (line_num - 1).toNat
    let start_idx : Nat := target_idx - context_lines
    let end_idx : Nat := min lines.length (target_idx + context_lines + 1)
    { target_line := stripNl (lines.getD target_idx "")
      before := (pySlice lines start_idx target_idx).map stripNl
      after := (pySlice lines (target_idx + 1) end_idx).map stripNl
      full_context :=
        if include_line_numbers then
          String.intercalate "\n" ((List.range' start_idx (end_idx - start_idx)).map (fun i =>
            padLeft4 (i + 1) ++ (if i = target_idx then "→" else " ") ++ " " ++
              stripNl (lines.getD i "")))
        else
          String.intercalate "\n" (pySlice lines start_idx end_idx) }

/-- A loaded prompt-template dictionary: the keys
select_template_for_finding and generate_patch_prompt look at; a `none`
field models an absent key. -/
structure Templates where
  system_prompt : Option String
  patch_template : Option String
  security_patch_template : Option String
  performance_patch_template : Option String
deriving DecidableEq, Repr

/-- prompt_generation.select_template_for_finding. The source's two
sequential `if` blocks fall through when the tag set matches but the
corresponding template key is absent; the nested matches render exactly
that control flow. -/
def select_template_for_finding (finding : Finding) (templates : Templates) : String :=
  let tags := finding.tags.map pyLower
  match (if "security" ∈ tags ∨ "secrets" ∈ tags ∨ "sast" ∈ tags then
          templates.security_patch_template else none) with
  | some t => t
  | none =>
    match (if "perf" ∈ tags ∨ "performance" ∈ tags then
            templates.performance_patch_template else none) with
    | some t => t
    | none => templates.patch_template.getD "Fix: {message}"

/-- The values generate_patch_prompt substitutes into the selected
template (`template.format(...)`, source lines 177–187). -/
structure PromptSubst where
  file : String
  line : String
  tool : String
  rule_id : String
  message : String
  severity : String
  context_before : String
  context_after : String
  full_context : String
deriving DecidableEq, Repr

/-- The substitution values built by generate_patch_prompt: `finding.line
if finding.line else ...` is Python truthiness, so a line of 0 behaves
like an absent line both for the extraction line number and for the
substituted string. -/
def promptSubstOf (finding : Finding) (fileLines : List String)
    (context_lines : Nat) : PromptSubst :=
  let line_num : Int :=
    match finding.line with
    | none => 1
    | some n => if n = 0 then 1 else n
  let context := extract_file_context fileLines line_num context_lines true
  { file := finding.file
    line := match finding.line with
      | none => "N/A"
      | some n => if n = 0 then "N/A" else toString n
    tool := finding.tool
    rule_id := finding.rule_id
    message := finding.message
    severity := finding.severity
    context_before := String.intercalate "\n" context.before
    context_after := String.intercalate "\n" context.after
    full_context := context.full_context }

/-- prompt_generation.generate_patch_prompt, with the opaque
`str.format` of the chosen template abstracted as the function `fmt`
(the prompt depends on the finding only through the selected template
and the substitution values). -/
def generate_patch_prompt (fmt : String → PromptSubst → String)
    (templates : Templates) (finding : Finding) (fileLines : List String)
    (context_lines : Nat) (include_system_prompt : Bool) : String :=
  let template := select_template_for_finding finding templates
  let prompt := fmt template (promptSubstOf finding fileLines context_lines)
  match include_system_prompt, templates.system_prompt with
  | true, some sp => sp ++ "\n\n" ++ prompt
  | _, _ => prompt

/-! Helper lemmas. -/

theorem round2_of_intMul {q : ℚ} {n : ℤ} (h : q * 100 = n) : round2 q = n / 100 := by
  unfold round2
  rw [h, roundHalfEven_intCast]

theorem sw_CRITICAL : _severity_weight "CRITICAL" = 1.0 := by
  unfold _severity_weight
  rw [if_pos (by decide)]

theorem sw_HIGH : _severity_weight "HIGH" = 0.85 := by
  unfold _severity_weight
  rw [if_neg (by decide), if_pos (by decide)]

theorem sw_INFO : _severity_weight "INFO" = 0.2 := by
  unfold _severity_weight
  rw [if_neg (by decide), if_neg (by decide), if_neg (by decide), if_neg (by decide),
    if_pos (by decide)]

theorem sumLens_nil {α : Type} : sumLens ([] : List (String × List α)) = 0 := rfl

theorem sumLens_cons {α : Type} (k : String) (v : List α) (rest : List (String × List α)) :
    sumLens ((k, v) :: rest) = v.length + sumLens rest := by
  simp [sumLens]

theorem sumLens_dictAppend {α : Type} (d : List (String × List α)) (k : String) (x : α) :
    sumLens (dictAppend d k x) = sumLens d + 1 := by
  induction d with
  | nil => simp [dictAppend, sumLens]
  | cons e rest ih =>
    obtain ⟨k', v'⟩ := e
    by_cases h : k' = k
    · simp [dictAppend, h, sumLens_cons]
      omega
    · simp [dictAppend, h, sumLens_cons, ih]
      omega

theorem sumLens_dictSet_nil {α : Type} {d : List (String × List α)} (k : String)
    (h : sumLens d = 0) : sumLens (dictSet d k []) = 0 := by
  induction d with
  | nil => simp [dictSet, sumLens]
  | cons e rest ih =>
    obtain ⟨k', v'⟩ := e
    rw [sumLens_cons] at h
    by_cases hk : k' = k
    · simp [dictSet, hk, sumLens_cons]
      omega
    · rw [dictSet, if_neg hk, sumLens_cons, ih (by omega)]
      omega

theorem dictKeys_dictSet_self {α : Type} (d : List (String × List α)) (k : String)
    (v : List α) : k ∈ dictKeys (dictSet d k v) := by
  induction d with
  | nil => simp [dictSet, dictKeys]
  | cons e rest ih =>
    obtain ⟨k', v'⟩ := e
    by_cases h : k' = k
    · simp [dictSet, h, dictKeys]
    · simp only [dictSet, if_neg h, dictKeys, List.map_cons, List.mem_cons]
      right
      exact ih

theorem dictKeys_dictSet_sup {α : Type} {d : List (String × List α)} {k' : String}
    (k : String) (v : List α) (h : k' ∈ dictKeys d) : k' ∈ dictKeys (dictSet d k v) := by
  induction d with
  | nil => simp [dictKeys] at h
  | cons e rest ih =>
    obtain ⟨ka, va⟩ := e
    simp only [dictKeys, List.map_cons, List.mem_cons] at h
    by_cases hk : ka = k
    · simp only [dictSet, if_pos hk, dictKeys, List.map_cons, List.mem_cons]
      rcases h with h | h
      · left; exact h
      · right; exact h
    · simp only [dictSet, if_neg hk, dictKeys, List.map_cons, List.mem_cons]
      rcases h with h | h
      · left; exact h
      · right; exact ih h

theorem dictKeys_dictAppend_sup {α : Type} {d : List (String × List α)} {k' : String}
    (k : String) (x : α) (h : k' ∈ dictKeys d) : k' ∈ dictKeys (dictAppend d k x) := by
  induction d with
  | nil => simp [dictKeys] at h
  | cons e rest ih =>
    obtain ⟨ka, va⟩ := e
    simp only [dictKeys, List.map_cons, List.mem_cons] at h
    by_cases hk : ka = k
    · simp only [dictAppend, if_pos hk, dictKeys, List.map_cons, List.mem_cons]
      rcases h with h | h
      · left; exact h
      · right; exact h
    · simp only [dictAppend, if_neg hk, dictKeys, List.map_cons, List.mem_cons]
      rcases h with h | h
      · left; exact h
      · right; exact ih h

theorem dictGetD_nil {α : Type} (k : String) : dictGetD ([] : List (String × List α)) k = [] := rfl

theorem dictGetD_cons {α : Type} (k k' : String) (v : List α) (rest : List (String × List α)) :
    dictGetD ((k', v) :: rest) k = if k' = k then v else dictGetD rest k := by
  by_cases h : k' = k
  · simp [dictGetD, List.find?, h]
  · simp only [dictGetD, List.find?]
    rw [show ((k' == k) = false) by simp [h]]
    rw [if_neg h]

theorem dictGetD_dictAppend_self {α : Type} (d : List (String × List α)) (k : String) (x : α) :
    dictGetD (dictAppend d k x) k = dictGetD d k ++ [x] := by
  induction d with
  | nil => simp [dictAppend, dictGetD_cons, dictGetD_nil]
  | cons e rest ih =>
    obtain ⟨k', v'⟩ := e
    by_cases h : k' = k
    · simp [dictAppend, h, dictGetD_cons]
    · rw [dictAppend, if_neg h, dictGetD_cons, if_neg h, dictGetD_cons, if_neg h, ih]

theorem dictGetD_dictAppend_ne {α : Type} {d : List (String × List α)} {k k' : String}
    (x : α) (h : k' ≠ k) : dictGetD (dictAppend d k x) k' = dictGetD d k' := by
  induction d with
  | nil =>
    simp only [dictAppend, dictGetD_cons, dictGetD_nil]
    rw [if_neg (fun hh => h hh.symm)]
  | cons e rest ih =>
    obtain ⟨ka, va⟩ := e
    by_cases hk : ka = k
    · rw [dictAppend, if_pos hk, dictGetD_cons, dictGetD_cons]
      have : ¬ ka = k' := by rw [hk]; exact fun hh => h hh.symm
      rw [if_neg this, if_neg this]
    · rw [dictAppend, if_neg hk, dictGetD_cons, dictGetD_cons, ih]

theorem dictGetD_of_sumLens_zero {α : Type} {d : List (String × List α)}
    (h : sumLens d = 0) (k : String) : dictGetD d k = [] := by
  induction d with
  | nil => rfl
  | cons e rest ih =>
    obtain ⟨k', v'⟩ := e
    rw [sumLens_cons] at h
    rw [dictGetD_cons]
    by_cases hk : k' = k
    · rw [if_pos hk]
      exact List.length_eq_zero.mp (by omega)
    · rw [if_neg hk]
      exact ih (by omega)

theorem init_fold_sum (config : List PhaseDef) :
    ∀ d : List (String × List ScoredItem), sumLens d = 0 →
    sumLens (config.foldl (fun d p => dictSet d p.name []) d) = 0 := by
  induction config with
  | nil => intro d h; simpa using h
  | cons p rest ih =>
    intro d h
    rw [List.foldl_cons]
    exact ih _ (sumLens_dictSet_nil p.name h)

theorem init_fold_keys_sup (config : List PhaseDef) :
    ∀ (d : List (String × List ScoredItem)) (k : String), k ∈ dictKeys d →
    k ∈ dictKeys (config.foldl (fun d p => dictSet d p.name []) d) := by
  induction config with
  | nil => intro d k h; simpa using h
  | cons p rest ih =>
    intro d k h
    rw [List.foldl_cons]
    exact ih _ k (dictKeys_dictSet_sup p.name [] h)

theorem init_fold_keys (config : List PhaseDef) :
    ∀ (d : List (String × List ScoredItem)) (p : PhaseDef), p ∈ config →
    p.name ∈ dictKeys (config.foldl (fun d p => dictSet d p.name []) d) := by
  induction config with
  | nil => intro d p h; simp at h
  | cons q rest ih =>
    intro d p h
    rw [List.foldl_cons]
    rcases List.mem_cons.mp h with h | h
    · subst h
      exact init_fold_keys_sup rest _ p.name (dictKeys_dictSet_self d p.name [])
    · exact ih _ p h

theorem route_fold_sum (nc : List PhaseDef) (items : List ScoredItem) :
    ∀ d : List (String × List ScoredItem),
    sumLens (items.foldl (fun d item => dictAppend d (routeKey nc item) item) d) =
      sumLens d + items.length := by
  induction items with
  | nil => intro d; simp
  | cons x xs ih =>
    intro d
    rw [List.foldl_cons, ih, sumLens_dictAppend]
    simp only [List.length_cons]
    omega

theorem route_fold_keys (nc : List PhaseDef) (items : List ScoredItem) :
    ∀ (d : List (String × List ScoredItem)) (k : String), k ∈ dictKeys d →
    k ∈ dictKeys (items.foldl (fun d item => dictAppend d (routeKey nc item) item) d) := by
  induction items with
  | nil => intro d k h; simpa using h
  | cons x xs ih =>
    intro d k h
    rw [List.foldl_cons]
    exact ih _ k (dictKeys_dictAppend_sup _ x h)

theorem route_fold_mem (nc : List PhaseDef) (items : List ScoredItem) :
    ∀ (d : List (String × List ScoredItem)) (k : String) (x : ScoredItem),
    x ∈ dictGetD d k →
    x ∈ dictGetD (items.foldl (fun d item => dictAppend d (routeKey nc item) item) d) k := by
  induction items with
  | nil => intro d k x h; simpa using h
  | cons y ys ih =>
    intro d k x h
    rw [List.foldl_cons]
    refine ih _ k x ?_
    by_cases hk : routeKey nc y = k
    · rw [← hk] at h ⊢
      rw [dictGetD_dictAppend_self]
      exact List.mem_append_left _ h
    · rw [dictGetD_dictAppend_ne y (fun hh => hk hh.symm)]
      exact h

theorem route_fold_mem_self (nc : List PhaseDef) (items : List ScoredItem) :
    ∀ (d : List (String × List ScoredItem)) (x : ScoredItem), x ∈ items →
    x ∈ dictGetD (items.foldl (fun d item => dictAppend d (routeKey nc item) item) d)
      (routeKey nc x) := by
  induction items with
  | nil => intro d x h; simp at h
  | cons y ys ih =>
    intro d x h
    rw [List.foldl_cons]
    rcases List.mem_cons.mp h with h | h
    · subst h
      refine route_fold_mem nc ys _ _ x ?_
      rw [dictGetD_dictAppend_self]
      exact List.mem_append_right _ (by simp)
    · exact ih _ x h

theorem route_fold_getD_ne (nc : List PhaseDef) (items : List ScoredItem) (k : String)
    (hk : ∀ x ∈ items, routeKey nc x ≠ k) :
    ∀ d : List (String × List ScoredItem),
    dictGetD (items.foldl (fun d item => dictAppend d (routeKey nc item) item) d) k =
      dictGetD d k := by
  induction items with
  | nil => intro d; rfl
  | cons y ys ih =>
    intro d
    rw [List.foldl_cons]
    rw [ih (fun x hx => hk x (List.mem_cons_of_mem y hx))]
    exact dictGetD_dictAppend_ne y (fun hh => hk y (by simp) hh.symm)

theorem to_phases_go (items : List ScoredItem) :
    ∀ (a0 a1 a2 a3 a4 : List ScoredItem),
    List.foldl (fun phases it =>
      if "security" ∈ it.finding.tags then
        dictAppend phases "Phase 1 – Security & Safety" it
      else if "perf" ∈ it.finding.tags then
        dictAppend phases "Phase 2 – Reliability & Performance" it
      else if "style" ∈ it.finding.tags then
        dictAppend phases "Phase 0 – Repo Hygiene" it
      else
        dictAppend phases "Phase 3 – Developer Experience" it)
      [("Phase 0 – Repo Hygiene", a0),
       ("Phase 1 – Security & Safety", a1),
       ("Phase 2 – Reliability & Performance", a2),
       ("Phase 3 – Developer Experience", a3),
       ("Phase 4 – Product Polish", a4)] items
    = [("Phase 0 – Repo Hygiene", a0 ++ items.filter (fun it =>
          !decide ("security" ∈ it.finding.tags) && !decide ("perf" ∈ it.finding.tags) &&
          decide ("style" ∈ it.finding.tags))),
       ("Phase 1 – Security & Safety", a1 ++ items.filter (fun it =>
          decide ("security" ∈ it.finding.tags))),
       ("Phase 2 – Reliability & Performance", a2 ++ items.filter (fun it =>
          !decide ("security" ∈ it.finding.tags) && decide ("perf" ∈ it.finding.tags))),
       ("Phase 3 – Developer Experience", a3 ++ items.filter (fun it =>
          !decide ("security" ∈ it.finding.tags) && !decide ("perf" ∈ it.finding.tags) &&
          !decide ("style" ∈ it.finding.tags))),
       ("Phase 4 – Product Polish", a4)] := by
  induction items with
  | nil => intro a0 a1 a2 a3 a4; simp
  | cons x xs ih =>
    intro a0 a1 a2 a3 a4
    by_cases hs : "security" ∈ x.finding.tags
    · simp only [List.foldl_cons, if_pos hs, dictAppend]
      simp [ih, List.filter_cons, hs]
    · by_cases hp : "perf" ∈ x.finding.tags
      · simp only [List.foldl_cons, if_neg hs, if_pos hp, dictAppend]
        simp [ih, List.filter_cons, hs, hp]
      · by_cases hst : "style" ∈ x.finding.tags
        · simp only [List.foldl_cons, if_neg hs, if_neg hp, if_pos hst, dictAppend]
          simp [ih, List.filter_cons, hs, hp, hst]
        · simp only [List.foldl_cons, if_neg hs, if_neg hp, if_neg hst, dictAppend]
          simp [ih, List.filter_cons, hs, hp, hst]

/-- C4: the fixed-rule router to_phases always returns exactly the five
hardcoded phase keys; each item is routed by first-match precedence
(security → Phase 1, else perf → Phase 2, else style → Phase 0, else
Phase 3); an item tagged both "security" and "style" lands in Phase 1 and
not in Phase 0; and the "Phase 4 – Product Polish" list is always empty. -/
theorem c4_fixed_router (items : List ScoredItem) :
    to_phases items =
      [("Phase 0 – Repo Hygiene", items.filter (fun it =>
          !decide ("security" ∈ it.finding.tags) && !decide ("perf" ∈ it.finding.tags) &&
          decide ("style" ∈ it.finding.tags))),
       ("Phase 1 – Security & Safety", items.filter (fun it =>
          decide ("security" ∈ it.finding.tags))),
       ("Phase 2 – Reliability & Performance", items.filter (fun it =>
          !decide ("security" ∈ it.finding.tags) && decide ("perf" ∈ it.finding.tags))),
       ("Phase 3 – Developer Experience", items.filter (fun it =>
          !decide ("security" ∈ it.finding.tags) && !decide ("perf" ∈ it.finding.tags) &&
          !decide ("style" ∈ it.finding.tags))),
       ("Phase 4 – Product Polish", [])]
    ∧ dictGetD (to_phases items) "Phase 4 – Product Polish" = []
    ∧ ∀ it ∈ items, "security" ∈ it.finding.tags → "style" ∈ it.finding.tags →
        it ∈ dictGetD (to_phases items) "Phase 1 – Security & Safety" ∧
        it ∉ dictGetD (to_phases items) "Phase 0 – Repo Hygiene" := by
  have heq : to_phases items =
      [("Phase 0 – Repo Hygiene", items.filter (fun it =>
          !decide ("security" ∈ it.finding.tags) && !decide ("perf" ∈ it.finding.tags) &&
          decide ("style" ∈ it.finding.tags))),
       ("Phase 1 – Security & Safety", items.filter (fun it =>
          decide ("security" ∈ it.finding.tags))),
       ("Phase 2 – Reliability & Performance", items.filter (fun it =>
          !decide ("security" ∈ it.finding.tags) && decide ("perf" ∈ it.finding.tags))),
       ("Phase 3 – Developer Experience", items.filter (fun it =>
          !decide ("security" ∈ it.finding.tags) && !decide ("perf" ∈ it.finding.tags) &&
          !decide ("style" ∈ it.finding.tags))),
       ("Phase 4 – Product Polish", [])] := by
    unfold to_phases
    rw [to_phases_go]
    simp
  refine ⟨heq, ?_, ?_⟩
  · rw [heq]
    rw [dictGetD_cons, if_neg (by decide), dictGetD_cons, if_neg (by decide),
      dictGetD_cons, if_neg (by decide), dictGetD_cons, if_neg (by decide),
      dictGetD_cons, if_pos rfl]
  · intro it hit hsec _
    constructor
    · rw [heq, dictGetD_cons, if_neg (by decide), dictGetD_cons, if_pos rfl]
      exact List.mem_filter.mpr ⟨hit, by simp [hsec]⟩
    · rw [heq, dictGetD_cons, if_pos rfl]
      intro hmem
      have := (List.mem_filter.mp hmem).2
      simp [hsec] at this

/-- Witness for c4_fixed_router: a concrete item tagged both "security"
and "style" is placed in Phase 1 and not in Phase 0. -/
theorem c4_fixed_router_witness :
    (⟨⟨"t", "r", "LOW", "m", "f", none, none, none, ["security", "style"]⟩, 1, 1, 1⟩ :
        ScoredItem) ∈
      dictGetD (to_phases [⟨⟨"t", "r", "LOW", "m", "f", none, none, none,
        ["security", "style"]⟩, 1, 1, 1⟩]) "Phase 1 – Security & Safety" ∧
    (⟨⟨"t", "r", "LOW", "m", "f", none, none, none, ["security", "style"]⟩, 1, 1, 1⟩ :
        ScoredItem) ∉
      dictGetD (to_phases [⟨⟨"t", "r", "LOW", "m", "f", none, none, none,
        ["security", "style"]⟩, 1, 1, 1⟩]) "Phase 0 – Repo Hygiene" :=
  (c4_fixed_router [⟨⟨"t", "r", "LOW", "m", "f", none, none, none,
      ["security", "style"]⟩, 1, 1, 1⟩]).2.2
    ⟨⟨"t", "r", "LOW", "m", "f", none, none, none, ["security", "style"]⟩, 1, 1, 1⟩
    (by simp) (by decide) (by decide)

/-- C1: to_phases_from_config partitions the input: the total number of
routed items equals the number of inputs (no loss, no duplication), and
the result's keys include every configured phase name plus the catch-all
"Uncategorized". -/
theorem c1_config_partition (items : List ScoredItem) (phase_config : List PhaseDef) :
    sumLens (to_phases_from_config items phase_config) = items.length
    ∧ "Uncategorized" ∈ dictKeys (to_phases_from_config items phase_config)
    ∧ ∀ p ∈ phase_config, p.name ∈ dictKeys (to_phases_from_config items phase_config) := by
  simp only [to_phases_from_config]
  refine ⟨?_, ?_, ?_⟩
  · rw [route_fold_sum]
    rw [sumLens_dictSet_nil "Uncategorized" (init_fold_sum phase_config [] rfl)]
    omega
  · exact route_fold_keys _ items _ _ (dictKeys_dictSet_self _ "Uncategorized" [])
  · intro p hp
    exact route_fold_keys _ items _ _
      (dictKeys_dictSet_sup "Uncategorized" [] (init_fold_keys phase_config [] p hp))

/-- Witness for c1_config_partition at a concrete item list and config. -/
theorem c1_config_partition_witness :
    sumLens (to_phases_from_config
        [⟨⟨"t", "r", "LOW", "m", "f", none, none, none, ["security"]⟩, 1, 1, 1⟩]
        [⟨"Security", ["security"]⟩, ⟨"Perf", ["perf"]⟩]) = 1
    ∧ "Uncategorized" ∈ dictKeys (to_phases_from_config
        [⟨⟨"t", "r", "LOW", "m", "f", none, none, none, ["security"]⟩, 1, 1, 1⟩]
        [⟨"Security", ["security"]⟩, ⟨"Perf", ["perf"]⟩])
    ∧ "Security" ∈ dictKeys (to_phases_from_config
        [⟨⟨"t", "r", "LOW", "m", "f", none, none, none, ["security"]⟩, 1, 1, 1⟩]
        [⟨"Security", ["security"]⟩, ⟨"Perf", ["perf"]⟩]) := by
  obtain ⟨h1, h2, h3⟩ := c1_config_partition
    [⟨⟨"t", "r", "LOW", "m", "f", none, none, none, ["security"]⟩, 1, 1, 1⟩]
    [⟨"Security", ["security"]⟩, ⟨"Perf", ["perf"]⟩]
  exact ⟨h1, h2, h3 ⟨"Security", ["security"]⟩ (by simp)⟩

/-- Counterexample to C10 as stated: in a configuration whose sole phase
is named "Uncategorized" with an empty include_tags list, an unmatched
item is appended to that phase's output list, so the output list of a
configured phase with empty include_tags is not always empty. -/
theorem c10_counterexample :
    dictGetD (to_phases_from_config
        [⟨⟨"t", "r", "LOW", "m", "f", none, none, none, []⟩, 1, 1, 1⟩]
        [⟨"Uncategorized", []⟩]) "Uncategorized" ≠ [] := by
  decide

/-- C10 (amended): an item with an empty tag list always lands in the
catch-all "Uncategorized" list; and a configured phase with empty
include_tags receives no item — its output list is empty — provided its
name is not the catch-all name "Uncategorized" and every configured phase
sharing its name also has empty include_tags. -/
theorem c10_amended (items : List ScoredItem) (config : List PhaseDef) :
    (∀ item ∈ items, item.finding.tags = [] →
        item ∈ dictGetD (to_phases_from_config items config) "Uncategorized")
    ∧ (∀ p ∈ config, p.include_tags = [] → p.name ≠ "Uncategorized" →
        (∀ q ∈ config, q.name = p.name → q.include_tags = []) →
        dictGetD (to_phases_from_config items config) p.name = []) := by
  constructor
  · intro item hitem htags
    simp only [to_phases_from_config]
    have hkey : routeKey (config.map (fun p => PhaseDef.mk p.name (p.include_tags.map pyLower)))
        item = "Uncategorized" := by
      unfold routeKey
      rw [List.find?_eq_none.mpr (fun p _ => by simp [htags])]
    have := route_fold_mem_self
      (config.map (fun p => PhaseDef.mk p.name (p.include_tags.map pyLower))) items
      (dictSet (config.foldl (fun d p => dictSet d p.name []) []) "Uncategorized" [])
      item hitem
    rwa [hkey] at this
  · intro p hp _ hname hshared
    simp only [to_phases_from_config]
    have hne : ∀ x ∈ items,
        routeKey (config.map (fun p => PhaseDef.mk p.name (p.include_tags.map pyLower))) x ≠
          p.name := by
      intro x _
      unfold routeKey
      cases hfind : (config.map (fun p => PhaseDef.mk p.name (p.include_tags.map pyLower))).find?
          (fun q => (x.finding.tags.map pyLower).any (fun tag => q.include_tags.contains tag)) with
      | none =>
        simpa using fun hh => hname hh.symm
      | some q =>
        have hqmem := List.mem_of_find?_eq_some hfind
        have hqpred := List.find?_some hfind
        simp only []
        intro hqname
        obtain ⟨p', hp'mem, hp'eq⟩ := List.mem_map.mp hqmem
        have hp'name : p'.name = p.name := by
          rw [← hp'eq] at hqname
          exact hqname
        have : p'.include_tags = [] := hshared p' hp'mem hp'name
        rw [← hp'eq] at hqpred
        simp only [this, List.map_nil] at hqpred
        simp [List.any_eq_true] at hqpred
    rw [route_fold_getD_ne _ items p.name hne]
    exact dictGetD_of_sumLens_zero
      (sumLens_dictSet_nil "Uncategorized" (init_fold_sum config [] rfl)) p.name

/-- Witness for c10_amended: a tagless item lands in "Uncategorized", and
a uniquely named phase with empty include_tags ends with an empty list. -/
theorem c10_amended_witness :
    (⟨⟨"t", "r", "LOW", "m", "f", none, none, none, []⟩, 1, 1, 1⟩ : ScoredItem) ∈
      dictGetD (to_phases_from_config
        [⟨⟨"t", "r", "LOW", "m", "f", none, none, none, []⟩, 1, 1, 1⟩]
        [⟨"Empty", []⟩, ⟨"Security", ["security"]⟩]) "Uncategorized"
    ∧ dictGetD (to_phases_from_config
        [⟨⟨"t", "r", "LOW", "m", "f", none, none, none, []⟩, 1, 1, 1⟩]
        [⟨"Empty", []⟩, ⟨"Security", ["security"]⟩]) "Empty" = [] := by
  obtain ⟨h1, h2⟩ := c10_amended
    [⟨⟨"t", "r", "LOW", "m", "f", none, none, none, []⟩, 1, 1, 1⟩]
    [⟨"Empty", []⟩, ⟨"Security", ["security"]⟩]
  refine ⟨h1 _ (by simp) rfl, ?_⟩
  refine h2 ⟨"Empty", []⟩ (by simp) rfl (by decide) ?_
  intro q hq hqname
  rcases (by simpa using hq : q = ⟨"Empty", []⟩ ∨ q = ⟨"Security", ["security"]⟩) with h | h
  · rw [h]
  · rw [h] at hqname
    simp at hqname

/-- A bandit security finding of HIGH severity, the end-to-end example of
the specification. -/
def banditFinding : Finding :=
  ⟨"bandit", "B602", "HIGH", "msg", "app.py", none, none, none, ["security"]⟩

/-- C5: the severity normalizer is total, bounded in [0.2, 1.0],
case-insensitive, maps the five known labels to their table values, and
returns the lenient default 0.2 for every unrecognized value including
the empty string. -/
theorem c5_severity_normalizer (s : String) :
    ((0.2 : ℚ) ≤ _severity_weight s ∧ _severity_weight s ≤ 1)
    ∧ _severity_weight "high" = _severity_weight "HIGH"
    ∧ _severity_weight "CRITICAL" = 1.0
    ∧ _severity_weight "HIGH" = 0.85
    ∧ _severity_weight "MEDIUM" = 0.6
    ∧ _severity_weight "LOW" = 0.35
    ∧ _severity_weight "INFO" = 0.2
    ∧ _severity_weight "" = 0.2
    ∧ (pyUpper s ∉ (["CRITICAL", "HIGH", "MEDIUM", "LOW", "INFO"] : List String) →
        _severity_weight s = 0.2) := by
  refine ⟨severity_weight_bounds s, ?_, sw_CRITICAL, sw_HIGH, ?_, ?_, sw_INFO, ?_, ?_⟩
  · rw [sw_HIGH]
    unfold _severity_weight
    rw [if_neg (by decide), if_pos (by decide)]
  · unfold _severity_weight
    rw [if_neg (by decide), if_neg (by decide), if_pos (by decide)]
  · unfold _severity_weight
    rw [if_neg (by decide), if_neg (by decide), if_neg (by decide), if_pos (by decide)]
  · unfold _severity_weight
    rw [if_neg (by decide), if_neg (by decide), if_neg (by decide), if_neg (by decide),
      if_neg (by decide)]
  · intro h
    simp only [List.mem_cons, List.not_mem_nil, or_false, not_or] at h
    unfold _severity_weight
    rw [if_neg h.1, if_neg h.2.1, if_neg h.2.2.1, if_neg h.2.2.2.1, if_neg h.2.2.2.2]

/-- Witness for c5_severity_normalizer: the unrecognized label "bogus"
gets the default weight 0.2. -/
theorem c5_severity_normalizer_witness :
    pyUpper "bogus" ∉ (["CRITICAL", "HIGH", "MEDIUM", "LOW", "INFO"] : List String) ∧
    _severity_weight "bogus" = 0.2 :=
  ⟨by decide, (c5_severity_normalizer "bogus").2.2.2.2.2.2.2.2 (by decide)⟩

/-- C3: the specification's end-to-end heuristic example — a bandit HIGH
security finding scores exactly (4.4, 4.4, 6h) — and, in general, the
heuristic difficulty_risk is round2 of
1.0 + 4.0 * weight(severity) * (1.0 if "security" in tags else 0.7). -/
theorem c3_heuristic_example :
    score_findings [banditFinding] = [⟨banditFinding, 4.4, 4.4, 6⟩]
    ∧ ∀ findings : List Finding,
        (score_findings findings).map ScoredItem.difficulty_risk =
          findings.map (fun f => round2 (1.0 + 4.0 * _severity_weight f.severity *
            (if "security" ∈ f.tags then 1.0 else 0.7))) := by
  constructor
  · have hsec : "security" ∈ banditFinding.tags := by decide
    have hsev : _severity_weight banditFinding.severity = 0.85 := by
      rw [show banditFinding.severity = "HIGH" from rfl, sw_HIGH]
    simp only [score_findings, List.map_cons, List.map_nil, if_pos hsec, if_pos (Or.inl hsec),
      hsev, ScoredItem.mk.injEq, List.cons.injEq, and_true, true_and, List.nil_eq]
    refine ⟨?_, ?_, ?_⟩
    · rw [round2_of_intMul (n := 440) (by norm_num)]
      norm_num
    · rw [round2_of_intMul (n := 440) (by norm_num)]
      norm_num
    · rw [if_neg (by norm_num), if_neg (by norm_num)]
  · intro findings
    simp [score_findings, List.map_map, Function.comp]

/-- C8: for two otherwise identical security-tagged findings, the
CRITICAL one scores at least as high as the INFO one in both
difficulty_risk and value_importance under the heuristic scorer. -/
theorem c8_severity_monotone (f : Finding) (hsec : "security" ∈ f.tags)
    (cItem iItem : ScoredItem)
    (hc : score_findings [{f with severity := "CRITICAL"}] = [cItem])
    (hi : score_findings [{f with severity := "INFO"}] = [iItem]) :
    iItem.difficulty_risk ≤ cItem.difficulty_risk ∧
    iItem.value_importance ≤ cItem.value_importance := by
  have hsecC : "security" ∈ ({f with severity := "CRITICAL"} : Finding).tags := hsec
  have hsecI : "security" ∈ ({f with severity := "INFO"} : Finding).tags := hsec
  simp only [score_findings, List.map_cons, List.map_nil, List.cons.injEq, and_true,
    if_pos hsecC, if_pos (Or.inl hsecC), if_pos hsecI, if_pos (Or.inl hsecI)] at hc hi
  rw [sw_CRITICAL] at hc
  rw [sw_INFO] at hi
  rw [← hc, ← hi]
  constructor
  · show round2 (1.0 + 4.0 * 0.2 * 1.0) ≤ round2 (1.0 + 4.0 * 1.0 * 1.0)
    exact round2_mono (by norm_num)
  · show round2 (1.0 + 4.0 * 0.2) ≤ round2 (1.0 + 4.0 * 1.0)
    exact round2_mono (by norm_num)

/-- Witness for c8_severity_monotone on the concrete bandit finding:
the CRITICAL variant scores (5, 5), the INFO variant (1.8, 1.8). -/
theorem c8_severity_monotone_witness :
    (⟨{banditFinding with severity := "INFO"}, 1.8, 1.8, 0.5⟩ : ScoredItem).difficulty_risk ≤
      (⟨{banditFinding with severity := "CRITICAL"}, 5, 5, 6⟩ : ScoredItem).difficulty_risk ∧
    (⟨{banditFinding with severity := "INFO"}, 1.8, 1.8, 0.5⟩ : ScoredItem).value_importance ≤
      (⟨{banditFinding with severity := "CRITICAL"}, 5, 5, 6⟩ : ScoredItem).value_importance := by
  have hsecC : "security" ∈ ({banditFinding with severity := "CRITICAL"} : Finding).tags := by
    decide
  have hsecI : "security" ∈ ({banditFinding with severity := "INFO"} : Finding).tags := by
    decide
  refine c8_severity_monotone banditFinding (by decide)
    ⟨{banditFinding with severity := "CRITICAL"}, 5, 5, 6⟩
    ⟨{banditFinding with severity := "INFO"}, 1.8, 1.8, 0.5⟩ ?_ ?_
  · have hsev : _severity_weight ({banditFinding with severity := "CRITICAL"} : Finding).severity
        = 1.0 := by
      rw [show ({banditFinding with severity := "CRITICAL"} : Finding).severity = "CRITICAL"
        from rfl, sw_CRITICAL]
    simp only [score_findings, List.map_cons, List.map_nil, if_pos hsecC, if_pos (Or.inl hsecC),
      hsev, ScoredItem.mk.injEq, List.cons.injEq, and_true, true_and, List.nil_eq]
    refine ⟨?_, ?_, ?_⟩
    · rw [round2_of_intMul (n := 500) (by norm_num)]
      norm_num
    · rw [round2_of_intMul (n := 500) (by norm_num)]
      norm_num
    · rw [if_neg (by norm_num), if_neg (by norm_num)]
  · have hsev : _severity_weight ({banditFinding with severity := "INFO"} : Finding).severity
        = 0.2 := by
      rw [show ({banditFinding with severity := "INFO"} : Finding).severity = "INFO"
        from rfl, sw_INFO]
    simp only [score_findings, List.map_cons, List.map_nil, if_pos hsecI, if_pos (Or.inl hsecI),
      hsev, ScoredItem.mk.injEq, List.cons.injEq, and_true, true_and, List.nil_eq]
    refine ⟨?_, ?_, ?_⟩
    · rw [round2_of_intMul (n := 180) (by norm_num)]
      norm_num
    · rw [round2_of_intMul (n := 180) (by norm_num)]
      norm_num
    · rw [if_pos (by norm_num)]

theorem ite_mem01 (b : Prop) [Decidable b] {x y : ℚ} (hx0 : 0 ≤ x) (hx1 : x ≤ 1)
    (hy0 : 0 ≤ y) (hy1 : y ≤ 1) : 0 ≤ (if b then x else y) ∧ (if b then x else y) ≤ 1 := by
  split_ifs <;> exact ⟨by assumption, by assumption⟩

theorem weighted_raw_bounds {w1 w2 w3 w4 c1 c2 c3 c4 : ℚ}
    (hw1 : 0 ≤ w1) (hw2 : 0 ≤ w2) (hw3 : 0 ≤ w3) (hw4 : 0 ≤ w4)
    (hwsum : w1 + w2 + w3 + w4 ≤ 1)
    (hc1 : 0 ≤ c1 ∧ c1 ≤ 1) (hc2 : 0 ≤ c2 ∧ c2 ≤ 1)
    (hc3 : 0 ≤ c3 ∧ c3 ≤ 1) (hc4 : 0 ≤ c4 ∧ c4 ≤ 1) :
    0 ≤ w1 * c1 + w2 * c2 + w3 * c3 + w4 * c4 ∧
    w1 * c1 + w2 * c2 + w3 * c3 + w4 * c4 ≤ 1 := by
  constructor
  · have := mul_nonneg hw1 hc1.1
    have := mul_nonneg hw2 hc2.1
    have := mul_nonneg hw3 hc3.1
    have := mul_nonneg hw4 hc4.1
    linarith
  · have h1 := mul_le_of_le_one_right hw1 hc1.2
    have h2 := mul_le_of_le_one_right hw2 hc2.2
    have h3 := mul_le_of_le_one_right hw3 hc3.2
    have h4 := mul_le_of_le_one_right hw4 hc4.2
    linarith

theorem scaled_round2_bounds {mn mx : ℤ} (hmn : mn ≤ mx) {raw : ℚ}
    (h0 : 0 ≤ raw) (h1 : raw ≤ 1) :
    (mn : ℚ) ≤ round2 ((mn : ℚ) + raw * ((mx : ℚ) - (mn : ℚ))) ∧
    round2 ((mn : ℚ) + raw * ((mx : ℚ) - (mn : ℚ))) ≤ (mx : ℚ) := by
  have hrange : (0 : ℚ) ≤ (mx : ℚ) - (mn : ℚ) := by
    have : (mn : ℚ) ≤ (mx : ℚ) := by exact_mod_cast hmn
    linarith
  constructor
  · exact intCast_le_round2 (by nlinarith)
  · refine round2_le_intCast ?_
    have : raw * ((mx : ℚ) - (mn : ℚ)) ≤ (mx : ℚ) - (mn : ℚ) :=
      mul_le_of_le_one_left hrange h1
    linarith

/-- The scoring configuration of the C2 counterexample: the four
difficulty weights are 1.0 each (so they sum to 4.0, not 1.0). -/
def c2cfg : ScoringConfig := ⟨some ⟨some 1, some 1, some 1, some 1⟩, none, none⟩

/-- The finding of the C2 counterexample. -/
def c2finding : Finding := ⟨"t", "r", "CRITICAL", "m", "f", none, none, none, ["security"]⟩

/-- Counterexample to C2 as stated: with a scoring configuration whose
difficulty weights do not sum to 1.0 (here 1.0 each), the config-driven
scorer produces difficulty_risk = 13.8 on a CRITICAL security finding,
far above the parsed max_score of 5, so the claimed bound fails. -/
theorem c2_counterexample :
    (score_findings_from_config [c2finding] c2cfg).map
        (fun l => l.map ScoredItem.difficulty_risk) = some [13.8]
    ∧ ¬ ((13.8 : ℚ) ≤ 5) := by
  constructor
  · have hps : parseScale ((c2cfg.scale).getD "1-5") = some (1, 5) := by decide
    simp only [score_findings_from_config, hps]
    have hsec : "security" ∈ c2finding.tags := by decide
    have htests : "tests" ∉ c2finding.tags := by decide
    have htool : ¬ (c2finding.tool = "flake8" ∨ c2finding.tool = "pylint") := by decide
    have hsev : _severity_weight c2finding.severity = 1.0 := by
      rw [show c2finding.severity = "CRITICAL" from rfl, sw_CRITICAL]
    simp only [List.map_cons, List.map_nil, Option.map_some, if_pos hsec, if_neg htests,
      if_neg htool, hsev, Option.some.injEq, List.cons.injEq, and_true]
    rw [show dwGet c2cfg.difficulty_weights DWeights.code_complexity = 1 from rfl,
      show dwGet c2cfg.difficulty_weights DWeights.coupling_blastradius = 1 from rfl,
      show dwGet c2cfg.difficulty_weights DWeights.test_coverage_gap = 1 from rfl,
      show dwGet c2cfg.difficulty_weights DWeights.tooling_fixability = 1 from rfl]
    rw [round2_of_intMul (n := 1380) (by push_cast; norm_num)]
    norm_num
  · norm_num

/-- C2 (amended): the heuristic scorer always produces scores in the
default [1, 5] range; the config-driven scorer produces scores in the
parsed [min_score, max_score] range provided the parsed scale has
min_score ≤ max_score and the effective weights of each group are
nonnegative and sum to at most 1.0 (without that restriction the scores
can leave the range, see the counterexample). -/
theorem c2_amended :
    (∀ findings : List Finding, ∀ it ∈ score_findings findings,
        (1 : ℚ) ≤ it.difficulty_risk ∧ it.difficulty_risk ≤ 5 ∧
        (1 : ℚ) ≤ it.value_importance ∧ it.value_importance ≤ 5)
    ∧ (∀ (findings : List Finding) (cfg : ScoringConfig) (mn mx : ℤ) (out : List ScoredItem),
        parseScale (cfg.scale.getD "1-5") = some (mn, mx) →
        mn ≤ mx →
        (0 ≤ dwGet cfg.difficulty_weights DWeights.code_complexity ∧
         0 ≤ dwGet cfg.difficulty_weights DWeights.coupling_blastradius ∧
         0 ≤ dwGet cfg.difficulty_weights DWeights.test_coverage_gap ∧
         0 ≤ dwGet cfg.difficulty_weights DWeights.tooling_fixability) →
        dwGet cfg.difficulty_weights DWeights.code_complexity +
          dwGet cfg.difficulty_weights DWeights.coupling_blastradius +
          dwGet cfg.difficulty_weights DWeights.test_coverage_gap +
          dwGet cfg.difficulty_weights DWeights.tooling_fixability ≤ 1 →
        (0 ≤ vwGet cfg.value_weights VWeights.security_severity ∧
         0 ≤ vwGet cfg.value_weights VWeights.reliability_perf ∧
         0 ≤ vwGet cfg.value_weights VWeights.developer_experience ∧
         0 ≤ vwGet cfg.value_weights VWeights.user_value) →
        vwGet cfg.value_weights VWeights.security_severity +
          vwGet cfg.value_weights VWeights.reliability_perf +
          vwGet cfg.value_weights VWeights.developer_experience +
          vwGet cfg.value_weights VWeights.user_value ≤ 1 →
        score_findings_from_config findings cfg = some out →
        ∀ it ∈ out, (mn : ℚ) ≤ it.difficulty_risk ∧ it.difficulty_risk ≤ (mx : ℚ) ∧
          (mn : ℚ) ≤ it.value_importance ∧ it.value_importance ≤ (mx : ℚ)) := by
  constructor
  · intro findings it hit
    simp only [score_findings, List.mem_map] at hit
    obtain ⟨f, _, rfl⟩ := hit
    obtain ⟨hsw0, hsw1⟩ := severity_weight_bounds f.severity
    refine ⟨?_, ?_, ?_, ?_⟩
    · refine intCast_le_round2 (n := 1) ?_
      push_cast
      split_ifs <;> nlinarith
    · have := round2_le_intCast (n := 5)
        (x := 1.0 + 4.0 * _severity_weight f.severity *
          (if "security" ∈ f.tags then (1.0 : ℚ) else 0.7)) ?_
      · exact_mod_cast this
      · split_ifs <;> nlinarith
    · refine intCast_le_round2 (n := 1) ?_
      push_cast
      split_ifs <;> nlinarith
    · have := round2_le_intCast (n := 5)
        (x := 1.0 + 4.0 *
          (if "security" ∈ f.tags ∨ "perf" ∈ f.tags then _severity_weight f.severity
           else (0.5 : ℚ))) ?_
      · exact_mod_cast this
      · split_ifs <;> nlinarith
  · intro findings cfg mn mx out hps hmn hdw0 hdwsum hvw0 hvwsum heq it hit
    rw [score_findings_from_config, hps] at heq
    simp only [Option.some.injEq] at heq
    rw [← heq] at hit
    simp only [List.mem_map] at hit
    obtain ⟨f, _, rfl⟩ := hit
    obtain ⟨hsw0, hsw1⟩ := severity_weight_bounds f.severity
    have hsw : 0 ≤ _severity_weight f.severity ∧ _severity_weight f.severity ≤ 1 :=
      ⟨by linarith, hsw1⟩
    obtain ⟨hd1, hd2, hd3, hd4⟩ := hdw0
    obtain ⟨hv1, hv2, hv3, hv4⟩ := hvw0
    have hdraw : 0 ≤ (dwGet cfg.difficulty_weights DWeights.code_complexity *
          _severity_weight f.severity +
        dwGet cfg.difficulty_weights DWeights.coupling_blastradius *
          (if "security" ∈ f.tags then (1.0 : ℚ) else 0.7) +
        dwGet cfg.difficulty_weights DWeights.test_coverage_gap *
          (if "tests" ∈ f.tags then (0.8 : ℚ) else 0.5) +
        dwGet cfg.difficulty_weights DWeights.tooling_fixability *
          (if f.tool = "flake8" ∨ f.tool = "pylint" then (0.3 : ℚ) else 0.7)) ∧
        (dwGet cfg.difficulty_weights DWeights.code_complexity *
          _severity_weight f.severity +
        dwGet cfg.difficulty_weights DWeights.coupling_blastradius *
          (if "security" ∈ f.tags then (1.0 : ℚ) else 0.7) +
        dwGet cfg.difficulty_weights DWeights.test_coverage_gap *
          (if "tests" ∈ f.tags then (0.8 : ℚ) else 0.5) +
        dwGet cfg.difficulty_weights DWeights.tooling_fixability *
          (if f.tool = "flake8" ∨ f.tool = "pylint" then (0.3 : ℚ) else 0.7)) ≤ 1 :=
      weighted_raw_bounds hd1 hd2 hd3 hd4 hdwsum hsw
        (by constructor <;> split_ifs <;> norm_num)
        (by constructor <;> split_ifs <;> norm_num)
        (by constructor <;> split_ifs <;> norm_num)
    have hvraw : 0 ≤ (vwGet cfg.value_weights VWeights.security_severity *
          (if "security" ∈ f.tags then _severity_weight f.severity else (0.2 : ℚ)) +
        vwGet cfg.value_weights VWeights.reliability_perf *
          (if "perf" ∈ f.tags then _severity_weight f.severity else (0.3 : ℚ)) +
        vwGet cfg.value_weights VWeights.developer_experience *
          (if "tests" ∈ f.tags ∨ "docs" ∈ f.tags ∨ "typing" ∈ f.tags then (0.6 : ℚ) else 0.3) +
        vwGet cfg.value_weights VWeights.user_value *
          (if "ux" ∈ f.tags ∨ "api" ∈ f.tags ∨ "i18n" ∈ f.tags then (0.7 : ℚ) else 0.2)) ∧
        (vwGet cfg.value_weights VWeights.security_severity *
          (if "security" ∈ f.tags then _severity_weight f.severity else (0.2 : ℚ)) +
        vwGet cfg.value_weights VWeights.reliability_perf *
          (if "perf" ∈ f.tags then _severity_weight f.severity else (0.3 : ℚ)) +
        vwGet cfg.value_weights VWeights.developer_experience *
          (if "tests" ∈ f.tags ∨ "docs" ∈ f.tags ∨ "typing" ∈ f.tags then (0.6 : ℚ) else 0.3) +
        vwGet cfg.value_weights VWeights.user_value *
          (if "ux" ∈ f.tags ∨ "api" ∈ f.tags ∨ "i18n" ∈ f.tags then (0.7 : ℚ) else 0.2)) ≤ 1 :=
      weighted_raw_bounds hv1 hv2 hv3 hv4 hvwsum
        (by constructor <;> split_ifs <;> first | linarith | norm_num)
        (by constructor <;> split_ifs <;> first | linarith | norm_num)
        (by constructor <;> split_ifs <;> norm_num)
        (by constructor <;> split_ifs <;> norm_num)
    have hd := scaled_round2_bounds hmn hdraw.1 hdraw.2
    have hv := scaled_round2_bounds hmn hvraw.1 hvraw.2
    exact ⟨hd.1, hd.2, hv.1, hv.2⟩

/-- Witness for c2_amended: the default configuration (all weights 0.25,
scale "1-5") keeps the single scored item of a CRITICAL security finding
within [1, 5]. -/
theorem c2_amended_witness :
    ∃ out, score_findings_from_config [c2finding] ⟨none, none, none⟩ = some out ∧
      ∀ it ∈ out, (1 : ℚ) ≤ it.difficulty_risk ∧ it.difficulty_risk ≤ (5 : ℚ) ∧
        (1 : ℚ) ≤ it.value_importance ∧ it.value_importance ≤ (5 : ℚ) := by
  have hps : parseScale ((⟨none, none, none⟩ : ScoringConfig).scale.getD "1-5") =
      some (1, 5) := by decide
  obtain ⟨out, hout⟩ : ∃ out,
      score_findings_from_config [c2finding] ⟨none, none, none⟩ = some out := by
    rw [score_findings_from_config, hps]
    exact ⟨_, rfl⟩
  refine ⟨out, hout, ?_⟩
  intro it hit
  have h5 : ((1 : ℤ) : ℚ) ≤ it.difficulty_risk ∧ it.difficulty_risk ≤ ((5 : ℤ) : ℚ) ∧
      ((1 : ℤ) : ℚ) ≤ it.value_importance ∧ it.value_importance ≤ ((5 : ℤ) : ℚ) := by
    refine c2_amended.2 [c2finding] ⟨none, none, none⟩ 1 5 out hps (by norm_num)
      ⟨by norm_num [dwGet], by norm_num [dwGet], by norm_num [dwGet], by norm_num [dwGet]⟩
      (by norm_num [dwGet])
      ⟨by norm_num [vwGet], by norm_num [vwGet], by norm_num [vwGet], by norm_num [vwGet]⟩
      (by norm_num [vwGet]) hout it hit
  exact_mod_cast h5

/-- C6: extract_file_context (on an existing, already-read file) is total:
at line_num 1 the `before` context is empty; for a line_num below 1 or
beyond the end of the file the result's full_context is an explanatory
string containing "out of range"; and for an in-range line the
before/after window is clamped to the file bounds (min of the requested
context size and what the file offers on each side). -/
theorem c6_extract_context (lines : List String) (n : Int) (c : Nat) (b : Bool) :
    (extract_file_context lines 1 c b).before = []
    ∧ (n - 1 < 0 ∨ (lines.length : Int) ≤ n - 1 →
        ∃ s t, (extract_file_context lines n c b).full_context = s ++ "out of range" ++ t)
    ∧ (0 ≤ n - 1 → n - 1 < (lines.length : Int) →
        (extract_file_context lines n c b).before.length = min c (n - 1).toNat
        ∧ (extract_file_context lines n c b).after.length =
            min c (lines.length - (n - 1).toNat - 1)) := by
  refine ⟨?_, ?_, ?_⟩
  · by_cases h : (1 : Int) - 1 < 0 ∨ (lines.length : Int) ≤ 1 - 1
    · rw [extract_file_context, if_pos h]
    · rw [extract_file_context, if_neg h]
      simp [pySlice]
  · intro h
    rw [extract_file_context, if_pos h]
    exact ⟨"Line " ++ toString n ++ " ",
      " (file has " ++ toString lines.length ++ " lines)", rfl⟩
  · intro h1 h2
    have hcond : ¬ (n - 1 < 0 ∨ (lines.length : Int) ≤ n - 1) := by omega
    have ht : (n - 1).toNat < lines.length := by omega
    rw [extract_file_context, if_neg hcond]
    constructor
    · simp only [List.length_map, pySlice, List.length_take, List.length_drop]
      omega
    · simp only [List.length_map, pySlice, List.length_take, List.length_drop]
      omega

/-- Witness for c6_extract_context on a concrete three-line file: line 9
is reported out of range, and at line 2 with a requested window of 2 the
before context is clamped to the single available line. -/
theorem c6_extract_context_witness :
    (∃ s t, (extract_file_context ["a\n", "b\n", "c\n"] 9 2 true).full_context =
      s ++ "out of range" ++ t)
    ∧ (extract_file_context ["a\n", "b\n", "c\n"] 2 2 true).before.length = 1 := by
  refine ⟨(c6_extract_context ["a\n", "b\n", "c\n"] 9 2 true).2.1 (by norm_num), ?_⟩
  have h := ((c6_extract_context ["a\n", "b\n", "c\n"] 2 2 true).2.2
    (by norm_num) (by norm_num)).1
  simpa using h

/-- C7: select_template_for_finding prefers the security patch template
when the lower-cased tags intersect {security, secrets, sast} and the key
exists; otherwise the performance patch template when the tags intersect
{perf, performance} and that key exists; otherwise the default
patch_template — in particular a security-tagged finding falls through to
the performance (or default) template when security_patch_template is
absent. -/
theorem c7_template_selection (f : Finding) (t : Templates) :
    (∀ s, ("security" ∈ f.tags.map pyLower ∨ "secrets" ∈ f.tags.map pyLower ∨
        "sast" ∈ f.tags.map pyLower) → t.security_patch_template = some s →
        select_template_for_finding f t = s)
    ∧ (∀ s, ¬ (("security" ∈ f.tags.map pyLower ∨ "secrets" ∈ f.tags.map pyLower ∨
        "sast" ∈ f.tags.map pyLower) ∧ t.security_patch_template.isSome) →
        ("perf" ∈ f.tags.map pyLower ∨ "performance" ∈ f.tags.map pyLower) →
        t.performance_patch_template = some s →
        select_template_for_finding f t = s)
    ∧ (¬ (("security" ∈ f.tags.map pyLower ∨ "secrets" ∈ f.tags.map pyLower ∨
        "sast" ∈ f.tags.map pyLower) ∧ t.security_patch_template.isSome) →
       ¬ (("perf" ∈ f.tags.map pyLower ∨ "performance" ∈ f.tags.map pyLower) ∧
        t.performance_patch_template.isSome) →
        select_template_for_finding f t = t.patch_template.getD "Fix: {message}")
    ∧ (∀ s, ("security" ∈ f.tags.map pyLower ∨ "secrets" ∈ f.tags.map pyLower ∨
        "sast" ∈ f.tags.map pyLower) → t.security_patch_template = none →
        ("perf" ∈ f.tags.map pyLower ∨ "performance" ∈ f.tags.map pyLower) →
        t.performance_patch_template = some s →
        select_template_for_finding f t = s) := by
  refine ⟨?_, ?_, ?_, ?_⟩
  · intro s hsec hkey
    rw [select_template_for_finding, if_pos hsec, hkey]
  · intro s hnsec hperf hkey
    rw [select_template_for_finding]
    by_cases hsec : "security" ∈ f.tags.map pyLower ∨ "secrets" ∈ f.tags.map pyLower ∨
        "sast" ∈ f.tags.map pyLower
    · have : t.security_patch_template = none := by
        cases hs : t.security_patch_template with
        | none => rfl
        | some v => exact absurd ⟨hsec, by rw [hs]; rfl⟩ hnsec
      rw [if_pos hsec, this, if_pos hperf, hkey]
    · rw [if_neg hsec, if_pos hperf, hkey]
  · intro hnsec hnperf
    rw [select_template_for_finding]
    have hsecnone : (if ("security" ∈ f.tags.map pyLower ∨ "secrets" ∈ f.tags.map pyLower ∨
        "sast" ∈ f.tags.map pyLower) then t.security_patch_template else none) = none := by
      split_ifs with hsec
      · cases hs : t.security_patch_template with
        | none => rfl
        | some v => exact absurd ⟨hsec, by rw [hs]; rfl⟩ hnsec
      · rfl
    have hperfnone : (if ("perf" ∈ f.tags.map pyLower ∨ "performance" ∈ f.tags.map pyLower)
        then t.performance_patch_template else none) = none := by
      split_ifs with hperf
      · cases hp : t.performance_patch_template with
        | none => rfl
        | some v => exact absurd ⟨hperf, by rw [hp]; rfl⟩ hnperf
      · rfl
    rw [hsecnone, hperfnone]
  · intro s hsec hnone hperf hkey
    rw [select_template_for_finding, if_pos hsec, hnone, if_pos hperf, hkey]

/-- Witness for c7_template_selection: a finding tagged "security" whose
template table lacks security_patch_template but has
performance_patch_template and is also tagged "perf" receives the
performance template. -/
theorem c7_template_selection_witness :
    select_template_for_finding
      ⟨"t", "r", "LOW", "m", "f", none, none, none, ["security", "perf"]⟩
      ⟨none, some "default", none, some "perf template"⟩ = "perf template" :=
  (c7_template_selection
      ⟨"t", "r", "LOW", "m", "f", none, none, none, ["security", "perf"]⟩
      ⟨none, some "default", none, some "perf template"⟩).2.2.2
    "perf template" (by decide) rfl (by decide) rfl

/-- C9: generate_patch_prompt treats a present-but-zero line exactly like
an absent line (Python truthiness of `finding.line`): the substituted
line value is the literal "N/A", the file context is extracted at line 1,
and the generated prompt is identical to the one for the same finding
with no line at all. -/
theorem c9_line_zero (fmt : String → PromptSubst → String) (templates : Templates)
    (f : Finding) (fileLines : List String) (context_lines : Nat) (isp : Bool)
    (h : f.line = some 0) :
    generate_patch_prompt fmt templates f fileLines context_lines isp =
      generate_patch_prompt fmt templates {f with line := none} fileLines context_lines isp
    ∧ (promptSubstOf f fileLines context_lines).line = "N/A"
    ∧ (promptSubstOf f fileLines context_lines).full_context =
        (extract_file_context fileLines 1 context_lines true).full_context := by
  refine ⟨?_, ?_, ?_⟩
  · simp only [generate_patch_prompt, promptSubstOf, h]
    rfl
  · simp only [promptSubstOf, h]
    rfl
  · simp only [promptSubstOf, h]
    rfl

/-- Witness for c9_line_zero: a concrete finding whose line is 0 produces
the same prompt as its line-less twin, with "N/A" substituted. -/
theorem c9_line_zero_witness :
    generate_patch_prompt (fun t s => t ++ s.line) ⟨none, some "L=", none, none⟩
      ⟨"t", "r", "LOW", "m", "f", some 0, none, none, []⟩ ["x\n"] 1 false =
      generate_patch_prompt (fun t s => t ++ s.line) ⟨none, some "L=", none, none⟩
        ⟨"t", "r", "LOW", "m", "f", none, none, none, []⟩ ["x\n"] 1 false
    ∧ (promptSubstOf ⟨"t", "r", "LOW", "m", "f", some 0, none, none, []⟩ ["x\n"] 1).line
        = "N/A" := by
  have h := c9_line_zero (fun t s => t ++ s.line) ⟨none, some "L=", none, none⟩
    ⟨"t", "r", "LOW", "m", "f", some 0, none, none, []⟩ ["x\n"] 1 false rfl
  exact ⟨h.1, h.2.1⟩

end Crengine
